import Mathlib

/-!
Verification development for the `mkdocs-swagger-ui-tag` plugin
(`src/mkdocs_swagger_ui_tag/plugin.py`).

The development shallowly embeds the plugin's pure logic:

* `process_options`   — merging global config with per-tag attribute overrides;
* `process_oath2_prop`— OAuth2 property extraction from tag attributes;
* `path_to_url`       — validation/rewriting of the `src` reference;
* `render_template`   — two-pass placeholder/hash fragment rendering;
* `on_post_page`      — the page transformation (tag discovery, grouped
  handling, iframe replacement, script append).

External collaborators (Python stdlib `json`, `urllib.parse`, `os.path`,
the Markdown `AMP_SUBSTITUTE` marker) are modelled from their documented
behaviour; the mkdocs `Files` collection, the Jinja template and the
cryptographic digest are abstracted as explicit parameters, since the
repository only consumes their interfaces.

Strings are manipulated through their underlying `List Char` so that every
definition evaluates by kernel reduction.
-/

/-! ### Generic string helpers (Python `str` semantics on `List Char`) -/

/-- Association-list lookup keyed by `String`; models Python `dict.get` /
`Tag.get` (first binding wins; BeautifulSoup attribute maps have unique keys). -/
def lookupStr {α : Type} : List (String × α) → String → Option α
  | [], _ => none
  | (k', v) :: rest, k => if k' = k then some v else lookupStr rest k

/-- Prefix test on character lists. -/
def listStartsWith : List Char → List Char → Bool
  | [], _ => true
  | _ :: _, [] => false
  | p :: ps, c :: cs => p == c && listStartsWith ps cs

/-- Python `str.startswith`. -/
def strStartsWith (s pre : String) : Bool :=
  listStartsWith pre.data s.data

/-- Python `str.endswith`. -/
def strEndsWith (s suf : String) : Bool :=
  listStartsWith suf.data.reverse s.data.reverse

/-- Substring occurrence on character lists (`needle`, then haystack). -/
def containsSubList (n : List Char) : List Char → Bool
  | [] => listStartsWith n []
  | c :: cs => listStartsWith n (c :: cs) || containsSubList n cs

/-- Python `sub in s`. -/
def strContainsSub (s sub : String) : Bool :=
  containsSubList sub.data s.data

/-- Python `str.lower` (ASCII, which is all the plugin compares). -/
def strToLower (s : String) : String :=
  String.mk (s.data.map Char.toLower)

/-- Python whitespace as used by `str.strip()`. -/
def isPyWs (c : Char) : Bool :=
  c == ' ' || c == '\t' || c == '\n' || c == '\r' || c == '\x0b' || c == '\x0c'

/-- Python `str.strip()`. -/
def strTrim (s : String) : String :=
  String.mk (((s.data.dropWhile isPyWs).reverse.dropWhile isPyWs).reverse)

/-- Python `s[:n]` on strings. -/
def strTake (s : String) (n : Nat) : String :=
  String.mk (s.data.take n)

/-- One step of Python `str.replace` for a non-empty pattern: replaces
non-overlapping occurrences left to right.  Fuel bounds the recursion by the
input length. -/
def replaceListAux (pat rep : List Char) : Nat → List Char → List Char
  | 0, s => s
  | _ + 1, [] => []
  | fuel + 1, c :: cs =>
    if listStartsWith pat (c :: cs) then
      rep ++ replaceListAux pat rep fuel ((c :: cs).drop pat.length)
    else
      c :: replaceListAux pat rep fuel cs

/-- Python `str.replace(pat, rep)` (the plugin only uses non-empty patterns). -/
def strReplace (s pat rep : String) : String :=
  if pat.data.isEmpty then s
  else String.mk (replaceListAux pat.data rep.data s.data.length s.data)

/-- Python `s.split(c)` keeping empty components. -/
def splitCharAux (c : Char) : List Char → List Char → List String
  | [], cur => [String.mk cur.reverse]
  | x :: xs, cur =>
    if x == c then String.mk cur.reverse :: splitCharAux c xs []
    else splitCharAux c xs (x :: cur)

/-- Python `s.split(c)`. -/
def splitChar (c : Char) (s : String) : List String :=
  splitCharAux c s.data []

/-- Splits at the first occurrence of `c` (removed); `none` if absent.
Models Python `s.split(c, 1)` guarded by `c in s`. -/
def splitAtFirst (c : Char) : List Char → Option (List Char × List Char)
  | [] => none
  | x :: xs =>
    if x == c then some ([], xs)
    else match splitAtFirst c xs with
      | some (a, b) => some (x :: a, b)
      | none => none

/-! ### A model of Python `json.loads`

The plugin feeds attribute strings through `json.loads` after normalising
single quotes to double quotes.  We model the JSON grammar it can meet:
`null`, booleans, integer numbers, strings with the standard escapes,
arrays and objects.  (Fractional/exponent numbers are rejected by this
model; the plugin's documented inputs are string lists and string maps.) -/

inductive Json where
  | null
  | jbool (b : Bool)
  | jnum (n : Int)
  | jstr (s : String)
  | jarr (xs : List Json)
  | jobj (xs : List (String × Json))

/-- Skips JSON whitespace. -/
def skipWs : List Char → List Char
  | c :: cs => if c == ' ' || c == '\t' || c == '\n' || c == '\r' then skipWs cs else c :: cs
  | [] => []

/-- Hexadecimal digit value. -/
def hexVal (c : Char) : Option Nat :=
  if '0' ≤ c ∧ c ≤ '9' then some (c.toNat - '0'.toNat)
  else if 'a' ≤ c ∧ c ≤ 'f' then some (c.toNat - 'a'.toNat + 10)
  else if 'A' ≤ c ∧ c ≤ 'F' then some (c.toNat - 'A'.toNat + 10)
  else none

/-- Parses a JSON string body (after the opening quote), accumulating
characters; returns the string and the rest of the input. -/
def parseJsonStr : List Char → List Char → Option (String × List Char)
  | [], _ => none
  | '"' :: rest, acc => some (String.mk acc.reverse, rest)
  | '\\' :: 'n' :: rest, acc => parseJsonStr rest ('\n' :: acc)
  | '\\' :: 't' :: rest, acc => parseJsonStr rest ('\t' :: acc)
  | '\\' :: 'r' :: rest, acc => parseJsonStr rest ('\r' :: acc)
  | '\\' :: 'b' :: rest, acc => parseJsonStr rest ('\x08' :: acc)
  | '\\' :: 'f' :: rest, acc => parseJsonStr rest ('\x0c' :: acc)
  | '\\' :: '/' :: rest, acc => parseJsonStr rest ('/' :: acc)
  | '\\' :: '\\' :: rest, acc => parseJsonStr rest ('\\' :: acc)
  | '\\' :: '"' :: rest, acc => parseJsonStr rest ('"' :: acc)
  | '\\' :: 'u' :: a :: b :: c :: d :: rest, acc =>
    match hexVal a, hexVal b, hexVal c, hexVal d with
    | some x, some y, some z, some w =>
      parseJsonStr rest (Char.ofNat (((x * 16 + y) * 16 + z) * 16 + w) :: acc)
    | _, _, _, _ => none
  | '\\' :: _, _ => none
  | c :: rest, acc => parseJsonStr rest (c :: acc)

/-- Leading run of decimal digits. -/
def spanDigits : List Char → List Char × List Char
  | [] => ([], [])
  | c :: cs =>
    if c.isDigit then
      let (d, r) := spanDigits cs
      (c :: d, r)
    else ([], c :: cs)

/-- Digit list to `Nat`. -/
def digitsToNat : List Char → Nat
  | cs => cs.foldl (fun acc c => acc * 10 + (c.toNat - '0'.toNat)) 0

/-- Parses a JSON integer number (leading-zero rule enforced; fractional and
exponent forms are outside this model). -/
def parseJsonNum (cs : List Char) : Option (Json × List Char) :=
  let negAndRest : Bool × List Char :=
    match cs with
    | '-' :: r => (true, r)
    | _ => (false, cs)
  match negAndRest.2 with
  | [] => none
  | c :: _ =>
    if c.isDigit then
      let (digits, rest) := spanDigits negAndRest.2
      if digits.headD 'x' == '0' && digits.length > 1 then none
      else
        match rest with
        | '.' :: _ => none
        | 'e' :: _ => none
        | 'E' :: _ => none
        | _ =>
          let n : Int := Int.ofNat (digitsToNat digits)
          some (Json.jnum (if negAndRest.1 then -n else n), rest)
    else none

mutual

/-- Parses a JSON value (recursive descent; fuel bounds nesting depth). -/
def parseJsonVal : Nat → List Char → Option (Json × List Char)
  | 0, _ => none
  | fuel + 1, cs =>
    match skipWs cs with
    | '"' :: rest => (parseJsonStr rest []).map (fun p => (Json.jstr p.1, p.2))
    | '[' :: rest =>
      (match skipWs rest with
       | ']' :: r2 => some (Json.jarr [], r2)
       | r2 => parseJsonItems fuel r2 [])
    | '\x7b' :: rest =>
      (match skipWs rest with
       | '\x7d' :: r2 => some (Json.jobj [], r2)
       | r2 => parseJsonMembers fuel r2 [])
    | 't' :: 'r' :: 'u' :: 'e' :: r => some (Json.jbool true, r)
    | 'f' :: 'a' :: 'l' :: 's' :: 'e' :: r => some (Json.jbool false, r)
    | 'n' :: 'u' :: 'l' :: 'l' :: r => some (Json.null, r)
    | cs' => parseJsonNum cs'

/-- Parses the items of a non-empty JSON array after `[`. -/
def parseJsonItems : Nat → List Char → List Json → Option (Json × List Char)
  | 0, _, _ => none
  | fuel + 1, cs, acc =>
    match parseJsonVal fuel cs with
    | none => none
    | some (v, rest) =>
      match skipWs rest with
      | ',' :: r2 => parseJsonItems fuel r2 (acc ++ [v])
      | ']' :: r2 => some (Json.jarr (acc ++ [v]), r2)
      | _ => none

/-- Parses the members of a non-empty JSON object after the opening brace. -/
def parseJsonMembers : Nat → List Char → List (String × Json) → Option (Json × List Char)
  | 0, _, _ => none
  | fuel + 1, cs, acc =>
    match skipWs cs with
    | '"' :: rest =>
      (match parseJsonStr rest [] with
       | none => none
       | some (k, r2) =>
         match skipWs r2 with
         | ':' :: r3 =>
           (match parseJsonVal fuel r3 with
            | none => none
            | some (v, r4) =>
              match skipWs r4 with
              | ',' :: r5 => parseJsonMembers fuel r5 (acc ++ [(k, v)])
              | '\x7d' :: r5 => some (Json.jobj (acc ++ [(k, v)]), r5)
              | _ => none)
         | _ => none)
    | _ => none

end

/-- Models Python `json.loads`: parse one value, then require only trailing
whitespace. -/
def jsonLoads (s : String) : Option Json :=
  match parseJsonVal (s.data.length + 2) s.data with
  | some (v, rest) => if skipWs rest == [] then some v else none
  | none => none

/-! ### Option values and the global configuration schema

`config_scheme` in `plugin.py` fixes twelve options with typed defaults.
`dict(self.config)` enumerates them in schema order.  Values live in a small
Python-value universe: `pynone` is Python `None` (distinct from every real
value). -/

inductive OptVal where
  | pynone
  | str (s : String)
  | bool (b : Bool)
  | int (n : Int)
  | list (xs : List Json)

/-- Tests for Python `None` (`cur_options[k] is None`). -/
def isNoneVal : OptVal → Bool
  | OptVal.pynone => true
  | _ => false

/-- The validated plugin configuration, one field per `config_scheme` entry.
`filter` is schema type `object` (any value); `oauth2RedirectUrl` is
`str` with default `None`. -/
structure GlobalConfig where
  background : String
  docExpansion : String
  filter : OptVal
  syntaxHighlightTheme : String
  tryItOutEnabled : Bool
  oauth2RedirectUrl : Option String
  supportedSubmitMethods : List String
  validatorUrl : String
  extra_css : List String
  dark_scheme_name : String
  filter_files : List String
  defaultModelsExpandDepth : Int

/-- `dict(self.config)` in schema order. -/
def configDict (c : GlobalConfig) : List (String × OptVal) :=
  [("background", OptVal.str c.background),
   ("docExpansion", OptVal.str c.docExpansion),
   ("filter", c.filter),
   ("syntaxHighlightTheme", OptVal.str c.syntaxHighlightTheme),
   ("tryItOutEnabled", OptVal.bool c.tryItOutEnabled),
   ("oauth2RedirectUrl",
     match c.oauth2RedirectUrl with
     | some s => OptVal.str s
     | none => OptVal.pynone),
   ("supportedSubmitMethods", OptVal.list (c.supportedSubmitMethods.map Json.jstr)),
   ("validatorUrl", OptVal.str c.validatorUrl),
   ("extra_css", OptVal.list (c.extra_css.map Json.jstr)),
   ("dark_scheme_name", OptVal.str c.dark_scheme_name),
   ("filter_files", OptVal.list (c.filter_files.map Json.jstr)),
   ("defaultModelsExpandDepth", OptVal.int c.defaultModelsExpandDepth)]

/-- The schema defaults from `config_scheme`. -/
def defaultConfig : GlobalConfig :=
  { background := ""
    docExpansion := "list"
    filter := OptVal.bool false
    syntaxHighlightTheme := "agate"
    tryItOutEnabled := false
    oauth2RedirectUrl := none
    supportedSubmitMethods := ["get", "put", "post", "delete", "options", "head", "patch", "trace"]
    validatorUrl := "none"
    extra_css := []
    dark_scheme_name := "slate"
    filter_files := []
    defaultModelsExpandDepth := 1 }

/-- Tag attributes as parsed by BeautifulSoup's `html.parser`: attribute
names arrive lowercased, values are raw strings. -/
abbrev Attrs := List (String × String)

/-- BeautifulSoup `Tag.has_attr`. -/
def hasAttr (a : Attrs) (k : String) : Bool :=
  (lookupStr a k).isSome

/-! ### `process_options` (plugin.py lines 325-360) -/

/-- The literal `skip_option_keys` list from `process_options`.  Note
`"custom_css_files"` matches no key of `config_scheme` (the custom-CSS
option is named `extra_css`), so only `"background"` is effective. -/
def skip_option_keys : List String := ["background", "custom_css_files"]

/-- Fixed second warning logged when a `supportedSubmitMethods` override is
discarded. -/
def warnIgnoreSSM : String := "Ignore supportedSubmitMethods attribute setting."

/-- Stands for the exception text logged first (`logging.warning(e)`); the
exact Python exception rendering is abstracted. -/
def warnBadSSM : String := "Attribute supportedSubmitMethods is not a valid list."

/-- Resolves one schema key against the tag: attribute override (with the
`supportedSubmitMethods` relaxed-JSON special case) or global default.
Returns the value (`pynone` = will be dropped) and any logged warnings. -/
def resolveOption (attrs : Attrs) (k : String) (gv : OptVal) : OptVal × List String :=
  match lookupStr attrs (strToLower k) with
  | some v =>
    if k = "supportedSubmitMethods" then
      match jsonLoads (strReplace v "'" "\"") with
      | some (Json.jarr xs) => (OptVal.list xs, [])
      | _ => (OptVal.pynone, [warnBadSSM, warnIgnoreSSM])
    else (OptVal.str v, [])
  | none => (gv, [])

/-- The entry contributed to `cur_options` by one schema key: the loop body
sets `cur_options[k]` and immediately pops it again when the value is
`None`, so exactly the non-`None` resolutions survive, in schema order. -/
def resolvedEntry (attrs : Attrs) (kv : String × OptVal) : Option (String × OptVal) :=
  if isNoneVal (resolveOption attrs kv.1 kv.2).1 then none
  else some (kv.1, (resolveOption attrs kv.1 kv.2).1)

/-- Final renaming step: `syntaxHighlightTheme` is popped and re-inserted
(at the end, per dict semantics) as `syntaxHighlight.theme`. -/
def renameTheme (opts : List (String × OptVal)) : List (String × OptVal) :=
  match lookupStr opts "syntaxHighlightTheme" with
  | some v =>
    (opts.filter (fun p => !(p.1 == "syntaxHighlightTheme"))) ++ [("syntaxHighlight.theme", v)]
  | none => opts

/-- `process_options`: resolved options plus the warnings logged while
resolving. -/
def process_options (cfg : GlobalConfig) (attrs : Attrs) :
    List (String × OptVal) × List String :=
  let global_options := (configDict cfg).filter (fun kv => !(skip_option_keys.contains kv.1))
  (renameTheme (global_options.filterMap (resolvedEntry attrs)),
   (global_options.map (fun kv => (resolveOption attrs kv.1 kv.2).2)).flatten)

/-! ### `process_oath2_prop` (plugin.py lines 362-398) -/

/-- OAuth2 property values: raw strings, coerced booleans, or the parsed
`additionalQueryStringParams` object. -/
inductive OathVal where
  | str (s : String)
  | bool (b : Bool)
  | obj (xs : List (String × Json))

/-- The literal `oath_prop_keys` list. -/
def oath_prop_keys : List String :=
  ["clientId", "clientSecret", "realm", "appName", "scopes",
   "additionalQueryStringParams",
   "useBasicAuthenticationWithAccessCodeGrant",
   "usePkceWithAuthorizationCodeGrant"]

/-- Fixed second warning logged when `additionalQueryStringParams` is
discarded. -/
def warnIgnoreAQSP : String := "Ignore additionalQueryStringParams attribute setting."

/-- Stands for the exception text logged first in that branch. -/
def warnBadAQSP : String := "Attribute additionalQueryStringParams is not a valid dict."

/-- Resolves one OAuth2 key from the tag attributes only: JSON-object
special case, case-insensitive boolean coercion for the two boolean keys,
raw string otherwise; absent attribute contributes nothing. -/
def resolveOath (attrs : Attrs) (k : String) : Option OathVal × List String :=
  match lookupStr attrs (strToLower k) with
  | none => (none, [])
  | some v =>
    if k = "additionalQueryStringParams" then
      match jsonLoads (strReplace v "'" "\"") with
      | some (Json.jobj xs) => (some (OathVal.obj xs), [])
      | _ => (none, [warnBadAQSP, warnIgnoreAQSP])
    else if k = "useBasicAuthenticationWithAccessCodeGrant" ∨
            k = "usePkceWithAuthorizationCodeGrant" then
      (some (OathVal.bool (strTrim (strToLower v) == "true")), [])
    else (some (OathVal.str v), [])

/-- `process_oath2_prop`: the OAuth2 property mapping (tag attributes only;
there is no global-configuration argument) plus logged warnings. -/
def process_oath2_prop (attrs : Attrs) : List (String × OathVal) × List String :=
  (oath_prop_keys.filterMap (fun k => (resolveOath attrs k).1.map (fun v => (k, v))),
   (oath_prop_keys.map (fun k => (resolveOath attrs k).2)).flatten)

/-! ### Models of `urllib.parse` and posix `os.path` -/

/-- The characters allowed in a URL scheme (`urllib.parse.scheme_chars`). -/
def schemeChars : List Char :=
  "abcdefghijklmnopqrstuvwxyzABCDEFGHIJKLMNOPQRSTUVWXYZ0123456789+-.".data

/-- Result of `urllib.parse.urlsplit`. -/
structure UrlParts where
  scheme : String
  netloc : String
  path : String
  query : String
  fragment : String

/-- Scheme extraction step of `urlsplit`: a leading `name:` is a scheme when
the name is non-empty, starts with an ASCII letter and uses only scheme
characters; otherwise the input is left untouched. -/
def splitScheme (cs : List Char) : String × List Char :=
  match splitAtFirst ':' cs with
  | none => ("", cs)
  | some (before, after) =>
    match before with
    | [] => ("", cs)
    | c0 :: _ =>
      if c0.isAlpha && before.all (fun c => schemeChars.contains c) then
        (strToLower (String.mk before), after)
      else ("", cs)

/-- Netloc extraction: everything after `//` up to the first of `/`, `?`, `#`. -/
def splitNetlocChars : List Char → List Char × List Char
  | [] => ([], [])
  | c :: cs =>
    if c == '/' || c == '?' || c == '#' then ([], c :: cs)
    else
      let (n, r) := splitNetlocChars cs
      (c :: n, r)

/-- `urllib.parse.urlsplit` (CPython order: scheme, netloc, fragment, query). -/
def urlsplit (url : String) : UrlParts :=
  let s1 := splitScheme url.data
  let n1 : String × List Char :=
    if listStartsWith ['/', '/'] s1.2 then
      let (n, r) := splitNetlocChars (s1.2.drop 2)
      (String.mk n, r)
    else ("", s1.2)
  let f1 : List Char × String :=
    match splitAtFirst '#' n1.2 with
    | some (a, b) => (a, String.mk b)
    | none => (n1.2, "")
  let q1 : String × String :=
    match splitAtFirst '?' f1.1 with
    | some (a, b) => (String.mk a, String.mk b)
    | none => (String.mk f1.1, "")
  ⟨s1.1, n1.1, q1.1, q1.2, f1.2⟩

/-- `urllib.parse.urlunsplit`. -/
def urlunsplit (scheme netloc path query fragment : String) : String :=
  let u1 :=
    if netloc ≠ "" ∨ (path ≠ "" ∧ strStartsWith path "//") then
      "//" ++ netloc ++ (if path ≠ "" ∧ ¬ strStartsWith path "/" then "/" ++ path else path)
    else path
  let u2 := if scheme ≠ "" then scheme ++ ":" ++ u1 else u1
  let u3 := if query ≠ "" then u2 ++ "?" ++ query else u2
  if fragment ≠ "" then u3 ++ "#" ++ fragment else u3

/-- `posixpath.split`: tail after the last `/`, head before it with trailing
slashes stripped unless the head is all slashes. -/
def pathSplit (p : String) : String × String :=
  let cs := p.data
  let tail := (cs.reverse.takeWhile (fun c => !(c == '/'))).reverse
  let head := cs.take (cs.length - tail.length)
  let head' :=
    if head ≠ [] ∧ ¬ head.all (fun c => c == '/') then
      (head.reverse.dropWhile (fun c => c == '/')).reverse
    else head
  (String.mk head', String.mk tail)

/-- `os.path.dirname`. -/
def dirname (p : String) : String := (pathSplit p).1

/-- `os.path.basename` / `os.path.split(p)[-1]`. -/
def basename (p : String) : String := (pathSplit p).2

/-- `posixpath.join` for two components. -/
def pathJoin (a b : String) : String :=
  if strStartsWith b "/" then b
  else if a = "" ∨ strEndsWith a "/" then a ++ b
  else a ++ "/" ++ b

/-- Fold step of `posixpath.normpath`: the accumulator holds the kept
components in reverse order. -/
def normpathStep (initialSlashes : Nat) (acc : List String) (comp : String) : List String :=
  if comp = "" ∨ comp = "." then acc
  else if comp ≠ ".." ∨ (initialSlashes = 0 ∧ acc = []) ∨ acc.head? = some ".." then
    comp :: acc
  else
    match acc with
    | _ :: rest => rest
    | [] => acc

/-- Joins components with `/`. -/
def joinSlash : List String → String
  | [] => ""
  | [x] => x
  | x :: xs => x ++ "/" ++ joinSlash xs

/-- `posixpath.normpath`. -/
def normpath (p : String) : String :=
  if p = "" then "."
  else
    let initialSlashes : Nat :=
      if strStartsWith p "/" then
        (if strStartsWith p "//" ∧ ¬ strStartsWith p "///" then 2 else 1)
      else 0
    let comps := splitChar '/' p
    let newComps := (comps.foldl (normpathStep initialSlashes) []).reverse
    let path := String.mk (List.replicate initialSlashes '/') ++ joinSlash newComps
    if path = "" then "." else path

/-- Python `s.lstrip(os.sep)` on posix. -/
def lstripSlash (s : String) : String :=
  String.mk (s.data.dropWhile (fun c => c == '/'))

/-- `urllib.parse.unquote`: percent-decoding (`%XX` pairs decoded bytewise;
multi-byte UTF-8 recombination is outside this model and outside the
plugin's documented inputs). -/
def unquoteList : List Char → List Char
  | '%' :: a :: b :: rest =>
    match hexVal a, hexVal b with
    | some x, some y => Char.ofNat (16 * x + y) :: unquoteList rest
    | _, _ => '%' :: unquoteList (a :: b :: rest)
  | c :: rest => c :: unquoteList rest
  | [] => []

/-- `urllib.parse.unquote` on strings. -/
def urlunquote (s : String) : String :=
  String.mk (unquoteList s.data)

/-- `markdown.util.AMP_SUBSTITUTE` (STX, `amp`, ETX). -/
def AMP_SUBSTITUTE : String := "\x02amp\x03"

/-! ### `path_to_url` (plugin.py lines 81-117) -/

/-- The mkdocs `Files` collection, reduced to the two interface points the
plugin uses: membership of a normalized source path
(`target_path not in self.files`), and
`files.get_file_from_path(t).url_relative_to(page_file)` as a function of
the target source path and the page source path. -/
structure SiteFiles where
  srcPaths : List String
  urlRelTo : String → String → String

/-- The pass-through condition guarding `path_to_url`: scheme or netloc
present, empty path, absolute (or backslash-led) reference, the Markdown
email-obfuscation marker, or an extensionless final path segment. -/
def ptuGuard (url : String) (u : UrlParts) : Bool :=
  u.scheme ≠ "" || u.netloc ≠ "" || u.path = "" ||
  strStartsWith url "/" || strStartsWith url "\\" ||
  strContainsSub url AMP_SUBSTITUTE ||
  !((basename u.path).data.contains '.')

/-- The warning logged when the target is not in the files collection
(text as in the source, including the `scr` typo). -/
def warnMissing (pageSrc target : String) : String :=
  "Documentation file \x27" ++ pageSrc ++ "\x27 contains Swagger UI scr to \x27" ++
  target ++ "\x27 which is not found in the documentation files."

/-- `path_to_url`: returns the resolved reference and an optional logged
warning.  Mirrors the source: guard, then target normalization
(`join`, `unquote`, `normpath`, `lstrip(os.sep)`), then membership check,
then `urlunsplit` with the page-relative URL in the path slot. -/
def path_to_url (files : SiteFiles) (pageSrc : String) (url : String) :
    String × Option String :=
  let u := urlsplit url
  if ptuGuard url u then (url, none)
  else
    let target := lstripSlash (normpath (pathJoin (dirname pageSrc) (urlunquote u.path)))
    if files.srcPaths.contains target then
      (urlunsplit u.scheme u.netloc (files.urlRelTo target pageSrc) u.query u.fragment, none)
    else
      (url, some (warnMissing pageSrc target))

/-! ### `render_template` (plugin.py lines 170-195)

The Jinja template (`swagger-ui/swagger.html`, an asset outside the Python
source) and the SHA-256 hex digest (`hashlib`) are abstracted as function
parameters `tmpl` and `hashHex`.  The source serializes `cur_options` /
`cur_oath2_prop` with `json.dumps` before templating; since the template is
abstract, the structured values are passed through unserialized. -/

/-- The literal placeholder rendered in the first pass. -/
def ID_PLACEHOLDER : String := "\x7b\x7bID_PLACEHOLDER\x7d\x7d"

/-- The spec reference passed to the template: one URL for a standalone
tag, or the ordered `url`/`name` pairs for a group. -/
inductive SpecUrl where
  | single (url : String)
  | group (items : List (String × String))

/-- Everything `template.render` receives. -/
structure TemplateInput where
  css_dir : String
  extra_css_files : List String
  js_dir : String
  background : String
  id : String
  openapi_spec_url : SpecUrl
  oauth2_redirect_url : String
  validatorUrl : String
  options : List (String × OptVal)
  oath2_prop : List (String × OathVal)

/-- Per-page values computed before the tag loop from `page.url` via the
mkdocs `utils` helpers (external collaborators). -/
structure PageCtx where
  css_dir : String
  js_dir : String
  default_oauth2_redirect_file : String
  extra_css_files : List String

/-- A rendered fragment: content-derived identifier, final content, and the
file name it is written under in the page's output directory. -/
structure Fragment where
  id : String
  content : String
  filename : String

/-- `cur_options.pop("oauth2RedirectUrl", "")`: the popped value as a
string (it is always a tag-attribute string when present; the global `None`
default was already dropped by `process_options`). -/
def popStrVal : Option OptVal → String
  | some (OptVal.str s) => s
  | _ => ""

/-- The first-pass render: template output with the placeholder identifier. -/
def placeholderOutput (tmpl : TemplateInput → String) (cfg : GlobalConfig)
    (pctx : PageCtx) (spec : SpecUrl) (attrs : Attrs) : String :=
  let cur_options := (process_options cfg attrs).1
  let redirect0 := popStrVal (lookupStr cur_options "oauth2RedirectUrl")
  let cur_options := cur_options.filter (fun p => !(p.1 == "oauth2RedirectUrl"))
  let oauth2_redirect_url :=
    if redirect0 = "" then pctx.default_oauth2_redirect_file else redirect0
  tmpl
    { css_dir := pctx.css_dir
      extra_css_files := pctx.extra_css_files
      js_dir := pctx.js_dir
      background := cfg.background
      id := ID_PLACEHOLDER
      openapi_spec_url := spec
      oauth2_redirect_url := oauth2_redirect_url
      validatorUrl := cfg.validatorUrl
      options := cur_options
      oath2_prop := (process_oath2_prop attrs).1 }

/-- `render_template`: render with the placeholder, hash, take the first 8
hex characters as the identifier, substitute it back, and derive the file
name `swagger-<id>.html`. -/
def render_template (hashHex : String → String) (tmpl : TemplateInput → String)
    (cfg : GlobalConfig) (pctx : PageCtx) (spec : SpecUrl) (attrs : Attrs) : Fragment :=
  let template_output := placeholderOutput tmpl cfg pctx spec attrs
  let cur_id := strTake (hashHex template_output) 8
  { id := cur_id
    content := strReplace template_output ID_PLACEHOLDER cur_id
    filename := "swagger-" ++ cur_id ++ ".html" }

/-! ### `on_post_page` (plugin.py lines 119-309) and `replace_with_iframe`

A page's parsed HTML is a flat node list: `swagger-ui` elements (the only
thing `find_all("swagger-ui")` returns), opaque other content, generated
`iframe` replacement nodes, and the appended script block (whose JS text is
an opaque client-side payload, irrelevant to every claim). -/

inductive Node where
  | tag (attrs : Attrs)
  | other (s : String)
  | iframe (attrs : Attrs)
  | script

/-- `replace_with_iframe` (plugin.py lines 311-323): the replacement node
with exactly the attributes the source sets. -/
def replace_with_iframe (cur_id iframe_filename : String) : Node :=
  Node.iframe
    [("id", cur_id), ("src", iframe_filename), ("frameborder", "0"),
     ("style", "display:none;"), ("width", "100%"),
     ("class", "swagger-ui-iframe"),
     ("onload",
      "this.style.display = \x27block\x27; this.style.overflow = \x27hidden\x27; this.style.width = \x27100%\x27;")]

/-- Attribute map of a `swagger-ui` element. -/
def nodeAttrs : Node → Option Attrs
  | Node.tag a => some a
  | _ => none

/-- `soup.find_all("swagger-ui")` in document order. -/
def docTags (doc : List Node) : List Attrs :=
  doc.filterMap nodeAttrs

/-- The grouped tags, in document order. -/
def groupedAttrs (doc : List Node) : List Attrs :=
  (docTags doc).filter (fun a => hasAttr a "grouped")

/-- The standalone tags, in document order. -/
def standaloneAttrs (doc : List Node) : List Attrs :=
  (docTags doc).filter (fun a => !(hasAttr a "grouped"))

/-- One `(url, name)` entry of the grouped spec list:
`path_to_url(page.file, ele.get("src", ""))` and
`ele.get("name", ele.get("src", ""))`. -/
def specEntry (files : SiteFiles) (pageSrc : String) (a : Attrs) : String × String :=
  ((path_to_url files pageSrc ((lookupStr a "src").getD "")).1,
   (lookupStr a "name").getD ((lookupStr a "src").getD ""))

/-- Rendering of one standalone tag (`render_template` with its resolved
`src`). -/
def standaloneRender (hashHex : String → String) (tmpl : TemplateInput → String)
    (cfg : GlobalConfig) (pctx : PageCtx) (files : SiteFiles) (pageSrc : String)
    (a : Attrs) : Fragment :=
  render_template hashHex tmpl cfg pctx
    (SpecUrl.single (path_to_url files pageSrc ((lookupStr a "src").getD "")).1) a

/-- The in-place node rewriting of the page: standalone tags are replaced by
their iframes; the first grouped tag (when a group fragment `gF` exists) is
replaced by the group iframe and every later grouped tag is extracted. -/
def rewriteNodes (R : Attrs → Fragment) (gF : Option Fragment) :
    List Node → Bool → List Node
  | [], _ => []
  | Node.tag a :: rest, seen =>
    if hasAttr a "grouped" then
      match gF with
      | some f =>
        if seen then rewriteNodes R gF rest true
        else replace_with_iframe f.id f.filename :: rewriteNodes R gF rest true
      | none => Node.tag a :: rewriteNodes R gF rest seen
    else
      replace_with_iframe (R a).id (R a).filename :: rewriteNodes R gF rest seen
  | n :: rest, seen => n :: rewriteNodes R gF rest seen

/-- `on_post_page`: the transformed node list and the fragments written to
disk, in write order.  Mirrors the source: `filter_files` bypass, early
return when no tags are found, standalone loop, grouped handling (options
from the first grouped tag only), script append. -/
def on_post_page (hashHex : String → String) (tmpl : TemplateInput → String)
    (cfg : GlobalConfig) (pctx : PageCtx) (files : SiteFiles) (pageSrc : String)
    (doc : List Node) : List Node × List Fragment :=
  if !cfg.filter_files.isEmpty &&
     !((cfg.filter_files.map normpath).contains (normpath pageSrc)) then
    (doc, [])
  else if (docTags doc).isEmpty then (doc, [])
  else
    let R := standaloneRender hashHex tmpl cfg pctx files pageSrc
    match groupedAttrs doc with
    | [] => (rewriteNodes R none doc false ++ [Node.script], (standaloneAttrs doc).map R)
    | g0 :: _ =>
      let gFrag := render_template hashHex tmpl cfg pctx
        (SpecUrl.group ((groupedAttrs doc).map (specEntry files pageSrc))) g0
      (rewriteNodes R (some gFrag) doc false ++ [Node.script],
       (standaloneAttrs doc).map R ++ [gFrag])

/-! ### Derived predicates and abbreviations used by the specification
statements -/

/-- Is this node a (still-raw) `swagger-ui` element? -/
def isTagNode : Node → Bool
  | Node.tag _ => true
  | _ => false

/-- Is this node a `swagger-ui` element carrying the `grouped` attribute? -/
def isGroupedNode : Node → Bool
  | Node.tag a => hasAttr a "grouped"
  | _ => false

/-- Is this node a standalone (non-grouped) `swagger-ui` element? -/
def isStandaloneNode : Node → Bool
  | Node.tag a => !(hasAttr a "grouped")
  | _ => false

/-- Is this node a generated iframe reference? -/
def isIframeNode : Node → Bool
  | Node.iframe _ => true
  | _ => false

/-- Is this character a hexadecimal digit? -/
def isHexDigitB (c : Char) : Bool :=
  (hexVal c).isSome

/-- Did `json.loads` produce a Python `list`? -/
def isArrJson : Option Json → Bool
  | some (Json.jarr _) => true
  | _ => false

/-- The key under which a resolved option key ends up in the output
(`syntaxHighlightTheme` is renamed to `syntaxHighlight.theme`). -/
def outKey (k : String) : String :=
  if k = "syntaxHighlightTheme" then "syntaxHighlight.theme" else k

/-- The normalized page-relative target path `path_to_url` checks against
the files collection. -/
def ptuTarget (pageSrc url : String) : String :=
  lstripSlash (normpath (pathJoin (dirname pageSrc) (urlunquote (urlsplit url).path)))

/-! ### Concrete fixtures used by the witness instantiations -/

/-- A stand-in digest function: constant 64-character hex string. -/
def wHash : String → String := fun _ => String.mk (List.replicate 64 'a')

/-- A stand-in template renderer. -/
def wTmpl : TemplateInput → String := fun _ => "RENDERED"

/-- A concrete page context. -/
def wPctx : PageCtx :=
  { css_dir := "../assets/stylesheets/"
    js_dir := "../assets/javascripts/"
    default_oauth2_redirect_file := "../assets/swagger-ui/oauth2-redirect.html"
    extra_css_files := [] }

/-- A files collection containing one spec file. -/
def wFiles : SiteFiles :=
  { srcPaths := ["api/openapi.json"]
    urlRelTo := fun t _ => "../" ++ t }

/-- An empty files collection. -/
def wFilesEmpty : SiteFiles :=
  { srcPaths := []
    urlRelTo := fun _ _ => "" }

/-- A three-tag page: one standalone tag and two grouped tags. -/
def wDoc : List Node :=
  [Node.other "<p>intro</p>",
   Node.tag [("src", "a.json")],
   Node.tag [("grouped", ""), ("src", "b.json")],
   Node.tag [("grouped", ""), ("name", "B2"), ("src", "c.json")]]

/-! ### Lookup lemmas for the resolved-option and OAuth2 maps -/

theorem lookupStr_eq_none_of_keys {α : Type} (k : String) :
    ∀ l : List (String × α), (∀ p ∈ l, p.1 ≠ k) → lookupStr l k = none := by
  intro l
  induction l with
  | nil => intro _; rfl
  | cons p rest ih =>
    intro h
    obtain ⟨k', v'⟩ := p
    have hk : k' ≠ k := h (k', v') (List.mem_cons_self _ _)
    simp only [lookupStr, if_neg hk]
    exact ih (fun q hq => h q (List.mem_cons_of_mem _ hq))

theorem lookupStr_append_some {α : Type} (k : String) (l1 l2 : List (String × α)) (v : α)
    (h : lookupStr l1 k = some v) : lookupStr (l1 ++ l2) k = some v := by
  induction l1 with
  | nil => simp [lookupStr] at h
  | cons p rest ih =>
    obtain ⟨k', v'⟩ := p
    by_cases hk : k' = k
    · simp only [List.cons_append, lookupStr, if_pos hk] at h ⊢
      exact h
    · simp only [List.cons_append, lookupStr, if_neg hk] at h ⊢
      exact ih h

theorem lookupStr_append_none {α : Type} (k : String) (l1 l2 : List (String × α))
    (h : lookupStr l1 k = none) : lookupStr (l1 ++ l2) k = lookupStr l2 k := by
  induction l1 with
  | nil => rfl
  | cons p rest ih =>
    obtain ⟨k', v'⟩ := p
    by_cases hk : k' = k
    · simp [lookupStr, if_pos hk] at h
    · simp only [List.cons_append, lookupStr, if_neg hk] at h ⊢
      exact ih h

theorem resolvedEntry_eq_some {attrs : Attrs} {kv : String × OptVal} {p : String × OptVal}
    (h : resolvedEntry attrs kv = some p) :
    p.1 = kv.1 ∧ p.2 = (resolveOption attrs kv.1 kv.2).1 := by
  unfold resolvedEntry at h
  by_cases hn : isNoneVal (resolveOption attrs kv.1 kv.2).1 = true
  · rw [if_pos hn] at h
    exact absurd h (by simp)
  · rw [if_neg hn] at h
    injection h with h
    subst h
    exact ⟨rfl, rfl⟩

theorem lookupOpts_filterMap_none (attrs : Attrs) (k : String) :
    ∀ l : List (String × OptVal), (∀ p ∈ l, p.1 ≠ k) →
      lookupStr (l.filterMap (resolvedEntry attrs)) k = none := by
  intro l
  induction l with
  | nil => intro _; rfl
  | cons kv rest ih =>
    intro h
    rw [List.filterMap_cons]
    cases hr : resolvedEntry attrs kv with
    | none => exact ih (fun q hq => h q (List.mem_cons_of_mem _ hq))
    | some p =>
      have hp := (resolvedEntry_eq_some hr).1
      have hk : p.1 ≠ k := hp ▸ h kv (List.mem_cons_self _ _)
      obtain ⟨pk, pv⟩ := p
      simp only [lookupStr, if_neg hk]
      exact ih (fun q hq => h q (List.mem_cons_of_mem _ hq))

theorem lookupOpts_filterMap_resolved (attrs : Attrs) (k : String) (gv : OptVal) :
    ∀ l : List (String × OptVal), (l.map Prod.fst).Nodup → lookupStr l k = some gv →
      lookupStr (l.filterMap (resolvedEntry attrs)) k =
        (if isNoneVal (resolveOption attrs k gv).1 then none
         else some (resolveOption attrs k gv).1) := by
  intro l
  induction l with
  | nil => intro _ h; simp [lookupStr] at h
  | cons kv rest ih =>
    intro hnd hl
    obtain ⟨k', v'⟩ := kv
    have hnd1 : k' ∉ rest.map Prod.fst := (List.nodup_cons.mp (by simpa using hnd)).1
    have hnd2 : (rest.map Prod.fst).Nodup := (List.nodup_cons.mp (by simpa using hnd)).2
    by_cases hk : k' = k
    · subst hk
      have hgv : v' = gv := by simpa [lookupStr] using hl
      subst hgv
      have hrest : ∀ q ∈ rest, q.1 ≠ k' := by
        intro q hq he
        exact hnd1 (he ▸ List.mem_map_of_mem Prod.fst hq)
      rw [List.filterMap_cons]
      by_cases hn : isNoneVal (resolveOption attrs k' v').1 = true
      · have hr : resolvedEntry attrs (k', v') = none := by
          unfold resolvedEntry
          rw [if_pos hn]
        rw [hr, hn, if_pos rfl]
        exact lookupOpts_filterMap_none attrs k' rest hrest
      · have hr : resolvedEntry attrs (k', v') =
            some (k', (resolveOption attrs k' v').1) := by
          unfold resolvedEntry
          rw [if_neg hn]
        rw [hr, if_neg hn]
        simp [lookupStr]
    · have hl' : lookupStr rest k = some gv := by
        simpa [lookupStr, hk] using hl
      rw [List.filterMap_cons]
      cases hr : resolvedEntry attrs (k', v') with
      | none => exact ih hnd2 hl'
      | some p =>
        have hp1 := (resolvedEntry_eq_some hr).1
        obtain ⟨pk, pv⟩ := p
        simp only at hp1
        subst hp1
        simp only [lookupStr, if_neg hk]
        exact ih hnd2 hl'

theorem mem_keys_filterMap_resolved {attrs : Attrs} {l : List (String × OptVal)}
    {p : String × OptVal} (hp : p ∈ l.filterMap (resolvedEntry attrs)) :
    p.1 ∈ l.map Prod.fst := by
  obtain ⟨kv, hkv, hr⟩ := List.mem_filterMap.mp hp
  exact (resolvedEntry_eq_some hr).1 ▸ List.mem_map_of_mem Prod.fst hkv

theorem lookupStr_filter_ne {α : Type} (k bad : String) (hk : k ≠ bad) :
    ∀ l : List (String × α),
      lookupStr (l.filter (fun p => !(p.1 == bad))) k = lookupStr l k := by
  intro l
  induction l with
  | nil => rfl
  | cons p rest ih =>
    obtain ⟨k', v'⟩ := p
    by_cases hb : k' = bad
    · subst hb
      have hkk : ¬ k' = k := fun h => hk h.symm
      have : (!(k' == k')) = false := by simp
      simp only [List.filter_cons, this, Bool.false_eq_true, if_false]
      rw [ih]
      simp only [lookupStr, if_neg hkk]
    · have hb' : (!(k' == bad)) = true := by simpa using hb
      simp only [List.filter_cons, hb', if_true]
      by_cases hkk : k' = k
      · simp only [lookupStr, if_pos hkk]
      · simp only [lookupStr, if_neg hkk]
        exact ih

theorem lookup_renameTheme_other (k : String) (h1 : k ≠ "syntaxHighlightTheme")
    (h2 : k ≠ "syntaxHighlight.theme") (l : List (String × OptVal)) :
    lookupStr (renameTheme l) k = lookupStr l k := by
  unfold renameTheme
  cases hsht : lookupStr l "syntaxHighlightTheme" with
  | none => rfl
  | some v =>
    cases hres : lookupStr (l.filter (fun p => !(p.1 == "syntaxHighlightTheme"))) k with
    | none =>
      rw [lookupStr_append_none k _ _ hres]
      have hln : lookupStr l k = none := by
        rw [← lookupStr_filter_ne k _ h1 l]
        exact hres
      rw [hln]
      simp only [lookupStr]
      rw [if_neg (fun h => h2 h.symm)]
    | some w =>
      rw [lookupStr_append_some k _ _ w hres]
      rw [lookupStr_filter_ne k _ h1 l] at hres
      exact hres.symm

theorem lookup_renameTheme_renamed (l : List (String × OptVal))
    (hnot : ∀ p ∈ l, p.1 ≠ "syntaxHighlight.theme") :
    lookupStr (renameTheme l) "syntaxHighlight.theme" =
      lookupStr l "syntaxHighlightTheme" := by
  unfold renameTheme
  cases hsht : lookupStr l "syntaxHighlightTheme" with
  | none => exact lookupStr_eq_none_of_keys _ l hnot
  | some v =>
    have hfil : lookupStr
        (l.filter (fun p => !(p.1 == "syntaxHighlightTheme"))) "syntaxHighlight.theme" = none := by
      apply lookupStr_eq_none_of_keys
      intro p hp
      exact hnot p (List.mem_of_mem_filter hp)
    rw [lookupStr_append_none _ _ _ hfil]
    simp [lookupStr]

/-! ### Characterisation of `process_options` lookups -/

theorem global_options_keys (cfg : GlobalConfig) :
    (((configDict cfg).filter (fun kv => !(skip_option_keys.contains kv.1))).map Prod.fst) =
      ["docExpansion", "filter", "syntaxHighlightTheme", "tryItOutEnabled",
       "oauth2RedirectUrl", "supportedSubmitMethods", "validatorUrl", "extra_css",
       "dark_scheme_name", "filter_files", "defaultModelsExpandDepth"] := rfl

theorem global_options_keys_nodup (cfg : GlobalConfig) :
    ((((configDict cfg).filter (fun kv => !(skip_option_keys.contains kv.1))).map Prod.fst)).Nodup := by
  rw [global_options_keys]
  decide

theorem process_options_lookup (cfg : GlobalConfig) (attrs : Attrs) (k : String) (gv : OptVal)
    (h1 : k ≠ "syntaxHighlightTheme") (h2 : k ≠ "syntaxHighlight.theme")
    (hgv : lookupStr ((configDict cfg).filter (fun kv => !(skip_option_keys.contains kv.1))) k = some gv) :
    lookupStr (process_options cfg attrs).1 k =
      (if isNoneVal (resolveOption attrs k gv).1 then none
       else some (resolveOption attrs k gv).1) := by
  unfold process_options
  rw [lookup_renameTheme_other k h1 h2]
  exact lookupOpts_filterMap_resolved attrs k gv _ (global_options_keys_nodup cfg) hgv

theorem process_options_lookup_theme (cfg : GlobalConfig) (attrs : Attrs) (gv : OptVal)
    (hgv : lookupStr ((configDict cfg).filter (fun kv => !(skip_option_keys.contains kv.1))) "syntaxHighlightTheme" = some gv) :
    lookupStr (process_options cfg attrs).1 "syntaxHighlight.theme" =
      (if isNoneVal (resolveOption attrs "syntaxHighlightTheme" gv).1 then none
       else some (resolveOption attrs "syntaxHighlightTheme" gv).1) := by
  unfold process_options
  rw [lookup_renameTheme_renamed]
  · exact lookupOpts_filterMap_resolved attrs _ gv _ (global_options_keys_nodup cfg) hgv
  · intro p hp
    have := mem_keys_filterMap_resolved hp
    rw [global_options_keys] at this
    intro he
    rw [he] at this
    simp at this

theorem warn_mem_process_options (cfg : GlobalConfig) (attrs : Attrs) (k : String)
    (gv : OptVal) (w : String)
    (hmem : (k, gv) ∈ (configDict cfg).filter (fun kv => !(skip_option_keys.contains kv.1)))
    (hw : w ∈ (resolveOption attrs k gv).2) :
    w ∈ (process_options cfg attrs).2 := by
  unfold process_options
  simp only [List.mem_flatten]
  exact ⟨(resolveOption attrs k gv).2, List.mem_map_of_mem _ hmem, hw⟩

/-- C1: the claim states that the Option Resolver's output contains exactly
the schema keys minus the excluded background and custom-CSS keys minus the
dropped-empty keys.  The code violates this: `skip_option_keys` names
`custom_css_files`, which matches no `config_scheme` key (the custom-CSS
option is `extra_css`), so the exclusion is a no-op and `extra_css` — with
its empty-list default — survives into the resolved options. -/
theorem C1_custom_css_list_not_excluded :
    lookupStr (process_options defaultConfig []).1 "extra_css" = some (OptVal.list []) ∧
    "custom_css_files" ∈ skip_option_keys ∧
    ((configDict defaultConfig).map Prod.fst).contains "custom_css_files" = false := by
  refine ⟨rfl, ?_, rfl⟩
  simp [skip_option_keys]

/-- C3: a `supportedSubmitMethods` tag attribute that parses (after quote
normalisation) as a JSON array becomes the parsed list in the resolved
options; on parse failure, or a non-list parse, the key is absent from the
resolved options (not the global default) and the fixed warning is logged. -/
theorem C3_supportedSubmitMethods (cfg : GlobalConfig) (attrs : Attrs) (s : String)
    (hs : lookupStr attrs "supportedsubmitmethods" = some s) :
    (∀ xs, jsonLoads (strReplace s "'" "\"") = some (Json.jarr xs) →
       lookupStr (process_options cfg attrs).1 "supportedSubmitMethods" =
         some (OptVal.list xs)) ∧
    (isArrJson (jsonLoads (strReplace s "'" "\"")) = false →
       lookupStr (process_options cfg attrs).1 "supportedSubmitMethods" = none ∧
       warnIgnoreSSM ∈ (process_options cfg attrs).2) := by
  have hlow : strToLower "supportedSubmitMethods" = "supportedsubmitmethods" := rfl
  have hgv : lookupStr ((configDict cfg).filter (fun kv => !(skip_option_keys.contains kv.1)))
      "supportedSubmitMethods" = some (OptVal.list (cfg.supportedSubmitMethods.map Json.jstr)) := rfl
  have hkey := process_options_lookup cfg attrs "supportedSubmitMethods"
    (OptVal.list (cfg.supportedSubmitMethods.map Json.jstr))
    (by decide) (by decide) hgv
  constructor
  · intro xs hx
    have hres : resolveOption attrs "supportedSubmitMethods"
        (OptVal.list (cfg.supportedSubmitMethods.map Json.jstr)) = (OptVal.list xs, []) := by
      unfold resolveOption
      rw [hlow, hs]
      simp [hx]
    rw [hkey, hres]
    rfl
  · intro hfail
    have hres : resolveOption attrs "supportedSubmitMethods"
        (OptVal.list (cfg.supportedSubmitMethods.map Json.jstr)) =
        (OptVal.pynone, [warnBadSSM, warnIgnoreSSM]) := by
      unfold resolveOption
      rw [hlow, hs]
      simp only [if_pos rfl]
      cases hj : jsonLoads (strReplace s "'" "\"") with
      | none => rfl
      | some j =>
        cases j with
        | jarr xs =>
          rw [hj] at hfail
          simp [isArrJson] at hfail
        | null => rfl
        | jbool b => rfl
        | jnum n => rfl
        | jstr t => rfl
        | jobj xs => rfl
    constructor
    · rw [hkey, hres]
      rfl
    · apply warn_mem_process_options cfg attrs "supportedSubmitMethods"
        (OptVal.list (cfg.supportedSubmitMethods.map Json.jstr))
      · simp [configDict, skip_option_keys]
      · rw [hres]
        simp

theorem C3_witness :
    (lookupStr (process_options defaultConfig
        [("supportedsubmitmethods", "['get','post']")]).1 "supportedSubmitMethods" =
      some (OptVal.list [Json.jstr "get", Json.jstr "post"])) ∧
    (lookupStr (process_options defaultConfig
        [("supportedsubmitmethods", "not json")]).1 "supportedSubmitMethods" = none ∧
     warnIgnoreSSM ∈ (process_options defaultConfig
        [("supportedsubmitmethods", "not json")]).2) :=
  ⟨(C3_supportedSubmitMethods defaultConfig
      [("supportedsubmitmethods", "['get','post']")] "['get','post']" rfl).1
      [Json.jstr "get", Json.jstr "post"] rfl,
   (C3_supportedSubmitMethods defaultConfig
      [("supportedsubmitmethods", "not json")] "not json" rfl).2 rfl⟩

/-! ### C9: raw-string overrides for non-special keys -/

theorem C9_case_helper (cfg : GlobalConfig) (attrs : Attrs) (k : String) (gv : OptVal)
    (h1 : k ≠ "syntaxHighlightTheme") (h2 : k ≠ "syntaxHighlight.theme")
    (hssm : k ≠ "supportedSubmitMethods")
    (hgv : lookupStr ((configDict cfg).filter (fun kv => !(skip_option_keys.contains kv.1))) k = some gv)
    (hcd : lookupStr (configDict cfg) k = some gv) :
    (∀ v, lookupStr attrs (strToLower k) = some v →
       lookupStr (process_options cfg attrs).1 (outKey k) = some (OptVal.str v)) ∧
    (lookupStr attrs (strToLower k) = none →
       lookupStr (process_options cfg attrs).1 (outKey k) =
         (lookupStr (configDict cfg) k).bind
           (fun g => if isNoneVal g then none else some g)) := by
  have hout : outKey k = k := if_neg h1
  have hkey := process_options_lookup cfg attrs k gv h1 h2 hgv
  constructor
  · intro v hv
    have hres : resolveOption attrs k gv = (OptVal.str v, []) := by
      unfold resolveOption
      rw [hv]
      simp [hssm]
    rw [hout, hkey, hres]
    rfl
  · intro hv
    have hres : resolveOption attrs k gv = (gv, []) := by
      unfold resolveOption
      rw [hv]
    rw [hout, hkey, hres, hcd]
    rfl

theorem C9_theme_helper (cfg : GlobalConfig) (attrs : Attrs) (gv : OptVal)
    (hgv : lookupStr ((configDict cfg).filter (fun kv => !(skip_option_keys.contains kv.1))) "syntaxHighlightTheme" = some gv)
    (hcd : lookupStr (configDict cfg) "syntaxHighlightTheme" = some gv) :
    (∀ v, lookupStr attrs (strToLower "syntaxHighlightTheme") = some v →
       lookupStr (process_options cfg attrs).1 (outKey "syntaxHighlightTheme") =
         some (OptVal.str v)) ∧
    (lookupStr attrs (strToLower "syntaxHighlightTheme") = none →
       lookupStr (process_options cfg attrs).1 (outKey "syntaxHighlightTheme") =
         (lookupStr (configDict cfg) "syntaxHighlightTheme").bind
           (fun g => if isNoneVal g then none else some g)) := by
  have hout : outKey "syntaxHighlightTheme" = "syntaxHighlight.theme" := rfl
  have hkey := process_options_lookup_theme cfg attrs gv hgv
  constructor
  · intro v hv
    have hres : resolveOption attrs "syntaxHighlightTheme" gv = (OptVal.str v, []) := by
      unfold resolveOption
      rw [hv]
      simp
    rw [hout, hkey, hres]
    rfl
  · intro hv
    have hres : resolveOption attrs "syntaxHighlightTheme" gv = (gv, []) := by
      unfold resolveOption
      rw [hv]
    rw [hout, hkey, hres, hcd]
    rfl

/-- C9: for every schema key other than the special-cased
`supportedSubmitMethods`, a tag-attribute override is stored verbatim as a
raw string (`OptVal.str`), regardless of the key's schema type, while the
same key without an override carries its typed global default (present
exactly when the default is not `None`); `syntaxHighlightTheme` surfaces
under its renamed output key. -/
theorem C9_overrides_are_raw_strings (cfg : GlobalConfig) (attrs : Attrs) (k : String)
    (hk : k ∈ (configDict cfg).map Prod.fst)
    (hskip : skip_option_keys.contains k = false)
    (hssm : k ≠ "supportedSubmitMethods") :
    (∀ v, lookupStr attrs (strToLower k) = some v →
       lookupStr (process_options cfg attrs).1 (outKey k) = some (OptVal.str v)) ∧
    (lookupStr attrs (strToLower k) = none →
       lookupStr (process_options cfg attrs).1 (outKey k) =
         (lookupStr (configDict cfg) k).bind
           (fun g => if isNoneVal g then none else some g)) := by
  have hk' : k = "background" ∨ k = "docExpansion" ∨ k = "filter" ∨
      k = "syntaxHighlightTheme" ∨ k = "tryItOutEnabled" ∨ k = "oauth2RedirectUrl" ∨
      k = "supportedSubmitMethods" ∨ k = "validatorUrl" ∨ k = "extra_css" ∨
      k = "dark_scheme_name" ∨ k = "filter_files" ∨ k = "defaultModelsExpandDepth" := by
    simpa [configDict] using hk
  rcases hk' with h | h | h | h | h | h | h | h | h | h | h | h
  · rw [h] at hskip
    simp [skip_option_keys] at hskip
  · exact h ▸ C9_case_helper cfg attrs _ _ (by decide) (by decide) (by decide) rfl rfl
  · exact h ▸ C9_case_helper cfg attrs _ _ (by decide) (by decide) (by decide) rfl rfl
  · exact h ▸ C9_theme_helper cfg attrs _ rfl rfl
  · exact h ▸ C9_case_helper cfg attrs _ _ (by decide) (by decide) (by decide) rfl rfl
  · exact h ▸ C9_case_helper cfg attrs _ _ (by decide) (by decide) (by decide) rfl rfl
  · exact absurd h hssm
  · exact h ▸ C9_case_helper cfg attrs _ _ (by decide) (by decide) (by decide) rfl rfl
  · exact h ▸ C9_case_helper cfg attrs _ _ (by decide) (by decide) (by decide) rfl rfl
  · exact h ▸ C9_case_helper cfg attrs _ _ (by decide) (by decide) (by decide) rfl rfl
  · exact h ▸ C9_case_helper cfg attrs _ _ (by decide) (by decide) (by decide) rfl rfl
  · exact h ▸ C9_case_helper cfg attrs _ _ (by decide) (by decide) (by decide) rfl rfl

theorem C9_witness :
    lookupStr (process_options defaultConfig [("tryitoutenabled", "FALSE")]).1
      "tryItOutEnabled" = some (OptVal.str "FALSE") ∧
    lookupStr (process_options defaultConfig [("defaultmodelsexpanddepth", "2")]).1
      "defaultModelsExpandDepth" = some (OptVal.str "2") ∧
    lookupStr (process_options defaultConfig []).1 "defaultModelsExpandDepth" =
      some (OptVal.int 1) := by
  refine ⟨?_, ?_, ?_⟩
  · exact (C9_overrides_are_raw_strings defaultConfig [("tryitoutenabled", "FALSE")]
      "tryItOutEnabled" (by simp [configDict]) rfl (by decide)).1 "FALSE" rfl
  · exact (C9_overrides_are_raw_strings defaultConfig [("defaultmodelsexpanddepth", "2")]
      "defaultModelsExpandDepth" (by simp [configDict]) rfl (by decide)).1 "2" rfl
  · have h := (C9_overrides_are_raw_strings defaultConfig [] "defaultModelsExpandDepth"
      (by simp [configDict]) rfl (by decide)).2 rfl
    rw [show outKey "defaultModelsExpandDepth" = "defaultModelsExpandDepth" from rfl] at h
    rw [h]
    rfl

/-! ### C7: OAuth2 property mapping -/

theorem lookupOath_mem (attrs : Attrs) (k : String) (w : OathVal)
    (hres : (resolveOath attrs k).1 = some w) :
    ∀ ks : List String, k ∈ ks →
      lookupStr (ks.filterMap (fun k' => (resolveOath attrs k').1.map (fun v => (k', v)))) k =
        some w := by
  intro ks
  induction ks with
  | nil => intro h; simp at h
  | cons k' rest ih =>
    intro hmem
    rw [List.filterMap_cons]
    by_cases hk : k' = k
    · subst hk
      rw [hres]
      simp [lookupStr]
    · cases hr : (resolveOath attrs k').1 with
      | none =>
        simp only [Option.map_none']
        exact ih (List.mem_of_ne_of_mem (fun h => hk h.symm) hmem)
      | some w' =>
        simp only [Option.map_some']
        simp only [lookupStr, if_neg hk]
        exact ih (List.mem_of_ne_of_mem (fun h => hk h.symm) hmem)

theorem lookupOath_drop (attrs : Attrs) (k : String)
    (hres : (resolveOath attrs k).1 = none) :
    ∀ ks : List String,
      lookupStr (ks.filterMap (fun k' => (resolveOath attrs k').1.map (fun v => (k', v)))) k =
        none := by
  intro ks
  induction ks with
  | nil => rfl
  | cons k' rest ih =>
    rw [List.filterMap_cons]
    by_cases hk : k' = k
    · subst hk
      rw [hres]
      exact ih
    · cases hr : (resolveOath attrs k').1 with
      | none =>
        simp only [Option.map_none']
        exact ih
      | some w' =>
        simp only [Option.map_some']
        simp only [lookupStr, if_neg hk]
        exact ih

theorem lookupOath_some_attr (attrs : Attrs) (k : String) (v : OathVal) :
    ∀ ks : List String,
      lookupStr (ks.filterMap (fun k' => (resolveOath attrs k').1.map (fun w => (k', w)))) k =
        some v →
      ∃ s, lookupStr attrs (strToLower k) = some s := by
  intro ks
  induction ks with
  | nil => intro h; simp [lookupStr] at h
  | cons k' rest ih =>
    intro h
    rw [List.filterMap_cons] at h
    cases hr : (resolveOath attrs k').1 with
    | none =>
      rw [hr] at h
      exact ih h
    | some w =>
      rw [hr] at h
      simp only [Option.map_some'] at h
      by_cases hk : k' = k
      · subst hk
        unfold resolveOath at hr
        cases ha : lookupStr attrs (strToLower k') with
        | none => rw [ha] at hr; simp at hr
        | some s => exact ⟨s, rfl⟩
      · simp only [lookupStr, if_neg hk] at h
        exact ih h

/-- C7: the two boolean-like OAuth2 attributes are coerced case-insensitively
(`lower().strip() == "true"`), every omitted OAuth2 attribute leaves its key
absent from the mapping, and every key present in the mapping is backed by a
tag attribute — the mapping has no global-configuration layer at all. -/
theorem C7_oauth2_properties (attrs : Attrs) :
    (∀ v, lookupStr attrs "usebasicauthenticationwithaccesscodegrant" = some v →
       lookupStr (process_oath2_prop attrs).1 "useBasicAuthenticationWithAccessCodeGrant" =
         some (OathVal.bool (strTrim (strToLower v) == "true"))) ∧
    (∀ v, lookupStr attrs "usepkcewithauthorizationcodegrant" = some v →
       lookupStr (process_oath2_prop attrs).1 "usePkceWithAuthorizationCodeGrant" =
         some (OathVal.bool (strTrim (strToLower v) == "true"))) ∧
    (∀ k, k ∈ oath_prop_keys → lookupStr attrs (strToLower k) = none →
       lookupStr (process_oath2_prop attrs).1 k = none) ∧
    (∀ k v, lookupStr (process_oath2_prop attrs).1 k = some v →
       ∃ s, lookupStr attrs (strToLower k) = some s) := by
  refine ⟨?_, ?_, ?_, ?_⟩
  · intro v hv
    have hres : (resolveOath attrs "useBasicAuthenticationWithAccessCodeGrant").1 =
        some (OathVal.bool (strTrim (strToLower v) == "true")) := by
      unfold resolveOath
      rw [show strToLower "useBasicAuthenticationWithAccessCodeGrant" =
        "usebasicauthenticationwithaccesscodegrant" from rfl, hv]
      simp
    exact lookupOath_mem attrs _ _ hres oath_prop_keys (by simp [oath_prop_keys])
  · intro v hv
    have hres : (resolveOath attrs "usePkceWithAuthorizationCodeGrant").1 =
        some (OathVal.bool (strTrim (strToLower v) == "true")) := by
      unfold resolveOath
      rw [show strToLower "usePkceWithAuthorizationCodeGrant" =
        "usepkcewithauthorizationcodegrant" from rfl, hv]
      simp
    exact lookupOath_mem attrs _ _ hres oath_prop_keys (by simp [oath_prop_keys])
  · intro k _ hk
    have hres : (resolveOath attrs k).1 = none := by
      unfold resolveOath
      rw [hk]
    exact lookupOath_drop attrs k hres oath_prop_keys
  · intro k v hv
    exact lookupOath_some_attr attrs k v oath_prop_keys hv

theorem C7_witness :
    lookupStr (process_oath2_prop [("usebasicauthenticationwithaccesscodegrant", "TRUE")]).1
      "useBasicAuthenticationWithAccessCodeGrant" = some (OathVal.bool true) ∧
    lookupStr (process_oath2_prop [("usebasicauthenticationwithaccesscodegrant", "false")]).1
      "useBasicAuthenticationWithAccessCodeGrant" = some (OathVal.bool false) ∧
    lookupStr (process_oath2_prop []).1 "useBasicAuthenticationWithAccessCodeGrant" = none := by
  refine ⟨?_, ?_, ?_⟩
  · exact (C7_oauth2_properties [("usebasicauthenticationwithaccesscodegrant", "TRUE")]).1
      "TRUE" rfl
  · exact (C7_oauth2_properties [("usebasicauthenticationwithaccesscodegrant", "false")]).1
      "false" rfl
  · exact (C7_oauth2_properties []).2.2.1 "useBasicAuthenticationWithAccessCodeGrant"
      (by simp [oath_prop_keys]) rfl

/-! ### C4 and C5: the Reference Resolver -/

theorem C4_target_def (pageSrc url : String) :
    lstripSlash (normpath (pathJoin (dirname pageSrc) (urlunquote (urlsplit url).path))) =
      ptuTarget pageSrc url := rfl

theorem urlunsplit_no_scheme (p q f : String) (hp : strStartsWith p "//" = false) :
    urlunsplit "" "" p q f =
      p ++ (if q = "" then "" else "?" ++ q) ++ (if f = "" then "" else "#" ++ f) := by
  unfold urlunsplit
  by_cases hq : q = "" <;> by_cases hf : f = "" <;>
    simp [hp, hq, hf, String.append_assoc]


/-- C5: a reference with a scheme or a network authority, an empty input, a
leading path separator (forward or backslash), the Markdown
email-obfuscation marker, or an extensionless final path segment is
returned unchanged — with no warning and without consulting the site file
index (the result is the same for every `files` value). -/
theorem C5_passthrough (files : SiteFiles) (pageSrc url : String)
    (h : (urlsplit url).scheme ≠ "" ∨ (urlsplit url).netloc ≠ "" ∨ url = "" ∨
         strStartsWith url "/" = true ∨ strStartsWith url "\\" = true ∨
         strContainsSub url AMP_SUBSTITUTE = true ∨
         (basename (urlsplit url).path).data.contains '.' = false) :
    path_to_url files pageSrc url = (url, none) := by
  have hguard : ptuGuard url (urlsplit url) = true := by
    rcases h with h | h | h | h | h | h | h
    · simp [ptuGuard, h]
    · simp [ptuGuard, h]
    · subst h; rfl
    · simp [ptuGuard, h]
    · simp [ptuGuard, h]
    · simp [ptuGuard, h]
    · have h' : '.' ∉ (basename (urlsplit url).path).data := by simpa using h
      simp [ptuGuard, h']
  simp [path_to_url, hguard]

theorem C5_witness :
    ((urlsplit "https://petstore.swagger.io/v2/swagger.json").scheme ≠ "" ∨
     (urlsplit "https://petstore.swagger.io/v2/swagger.json").netloc ≠ "" ∨
     "https://petstore.swagger.io/v2/swagger.json" = "" ∨
     strStartsWith "https://petstore.swagger.io/v2/swagger.json" "/" = true ∨
     strStartsWith "https://petstore.swagger.io/v2/swagger.json" "\\" = true ∨
     strContainsSub "https://petstore.swagger.io/v2/swagger.json" AMP_SUBSTITUTE = true ∨
     (basename (urlsplit "https://petstore.swagger.io/v2/swagger.json").path).data.contains '.' = false) ∧
    path_to_url wFilesEmpty "p.md" "https://petstore.swagger.io/v2/swagger.json" =
      ("https://petstore.swagger.io/v2/swagger.json", none) ∧
    path_to_url wFilesEmpty "p.md" "dir/noext" = ("dir/noext", none) :=
  ⟨Or.inl (by decide),
   C5_passthrough wFilesEmpty "p.md" _ (Or.inl (by decide)),
   C5_passthrough wFilesEmpty "p.md" "dir/noext"
     (Or.inr (Or.inr (Or.inr (Or.inr (Or.inr (Or.inr (by decide)))))))⟩

/-- C4: for a reference past the pass-through guard, a normalized target
absent from the file index yields the warning and the unchanged input, and
a present target yields the page-relative URL of the target with the
original query string and fragment preserved. -/
theorem C4_resolve_or_warn (files : SiteFiles) (pageSrc url : String)
    (hguard : ptuGuard url (urlsplit url) = false) :
    (files.srcPaths.contains (ptuTarget pageSrc url) = false →
       path_to_url files pageSrc url =
         (url, some (warnMissing pageSrc (ptuTarget pageSrc url)))) ∧
    (files.srcPaths.contains (ptuTarget pageSrc url) = true →
       path_to_url files pageSrc url =
         (urlunsplit (urlsplit url).scheme (urlsplit url).netloc
            (files.urlRelTo (ptuTarget pageSrc url) pageSrc)
            (urlsplit url).query (urlsplit url).fragment, none) ∧
       (strStartsWith (files.urlRelTo (ptuTarget pageSrc url) pageSrc) "//" = false →
          (path_to_url files pageSrc url).1 =
            files.urlRelTo (ptuTarget pageSrc url) pageSrc ++
            (if (urlsplit url).query = "" then "" else "?" ++ (urlsplit url).query) ++
            (if (urlsplit url).fragment = "" then "" else "#" ++ (urlsplit url).fragment))) := by
  have hsn : (urlsplit url).scheme = "" ∧ (urlsplit url).netloc = "" := by
    unfold ptuGuard at hguard
    simp only [Bool.or_eq_false_iff] at hguard
    exact ⟨by simpa using hguard.1.1.1.1.1.1, by simpa using hguard.1.1.1.1.1.2⟩
  constructor
  · intro hc
    simp only [path_to_url, hguard, Bool.false_eq_true, if_false, C4_target_def, hc]
  · intro hc
    have hres : path_to_url files pageSrc url =
        (urlunsplit (urlsplit url).scheme (urlsplit url).netloc
          (files.urlRelTo (ptuTarget pageSrc url) pageSrc)
          (urlsplit url).query (urlsplit url).fragment, none) := by
      simp only [path_to_url, hguard, Bool.false_eq_true, if_false, C4_target_def, hc, if_true]
    refine ⟨hres, ?_⟩
    intro hrel
    rw [hres]
    show urlunsplit (urlsplit url).scheme (urlsplit url).netloc
      (files.urlRelTo (ptuTarget pageSrc url) pageSrc)
      (urlsplit url).query (urlsplit url).fragment = _
    rw [hsn.1, hsn.2, urlunsplit_no_scheme _ _ _ hrel]

theorem C4_witness :
    path_to_url wFilesEmpty "guide/index.md" "../api/openapi.json" =
      ("../api/openapi.json", some (warnMissing "guide/index.md" "api/openapi.json")) ∧
    path_to_url wFiles "guide/index.md" "../api/openapi.json?x=1#frag" =
      (urlunsplit "" "" "../api/openapi.json" "x=1" "frag", none) ∧
    (path_to_url wFiles "guide/index.md" "../api/openapi.json?x=1#frag").1 =
      "../api/openapi.json" ++ "?x=1" ++ "#frag" := by
  refine ⟨?_, ?_, ?_⟩
  · have h := (C4_resolve_or_warn wFilesEmpty "guide/index.md" "../api/openapi.json" rfl).1 rfl
    exact h.trans (by rfl)
  · have h := ((C4_resolve_or_warn wFiles "guide/index.md"
      "../api/openapi.json?x=1#frag" rfl).2 rfl).1
    exact h.trans (by rfl)
  · have h := ((C4_resolve_or_warn wFiles "guide/index.md"
      "../api/openapi.json?x=1#frag" rfl).2 rfl).2 rfl
    exact h.trans (by rfl)

/-! ### C8 and C10: page transformation edge cases -/

theorem docTags_length (doc : List Node) :
    (docTags doc).length = doc.countP isTagNode := by
  unfold docTags
  induction doc with
  | nil => rfl
  | cons n rest ih =>
    cases n <;>
      simp [nodeAttrs, List.filterMap_cons, List.countP_cons, isTagNode, ih]

/-- C8: a page whose HTML contains no `swagger-ui` tag is returned
unchanged — no node is rewritten, no script is appended and no fragment is
written (this holds on both the `filter_files` bypass and the main path). -/
theorem C8_no_tags_identity (hashHex : String → String) (tmpl : TemplateInput → String)
    (cfg : GlobalConfig) (pctx : PageCtx) (files : SiteFiles) (pageSrc : String)
    (doc : List Node) (h : doc.countP isTagNode = 0) :
    on_post_page hashHex tmpl cfg pctx files pageSrc doc = (doc, []) := by
  unfold on_post_page
  by_cases hf : (!cfg.filter_files.isEmpty &&
      !((cfg.filter_files.map normpath).contains (normpath pageSrc))) = true
  · rw [if_pos hf]
  · rw [if_neg hf]
    have hlen : (docTags doc).length = 0 := by
      rw [docTags_length]
      exact h
    have hnil : docTags doc = [] := List.length_eq_zero.mp hlen
    rw [if_pos (by rw [hnil]; rfl)]

theorem C8_witness :
    on_post_page wHash wTmpl defaultConfig wPctx wFilesEmpty "index.md"
      [Node.other "<p>no swagger here</p>"] = ([Node.other "<p>no swagger here</p>"], []) :=
  C8_no_tags_identity wHash wTmpl defaultConfig wPctx wFilesEmpty "index.md"
    [Node.other "<p>no swagger here</p>"] (by decide)

/-- C10: a standalone tag with no `src` attribute is still processed: the
Reference Resolver receives the empty string and passes it through
unchanged (the empty-path guard), the fragment is rendered with the empty
spec URL, and the tag is replaced by its iframe with the script appended. -/
theorem C10_no_src (hashHex : String → String) (tmpl : TemplateInput → String)
    (cfg : GlobalConfig) (pctx : PageCtx) (files : SiteFiles) (pageSrc : String)
    (a : Attrs)
    (hfilter : cfg.filter_files = [])
    (hsrc : lookupStr a "src" = none)
    (hgr : hasAttr a "grouped" = false) :
    path_to_url files pageSrc "" = ("", none) ∧
    standaloneRender hashHex tmpl cfg pctx files pageSrc a =
      render_template hashHex tmpl cfg pctx (SpecUrl.single "") a ∧
    on_post_page hashHex tmpl cfg pctx files pageSrc [Node.tag a] =
      ([replace_with_iframe (standaloneRender hashHex tmpl cfg pctx files pageSrc a).id
          (standaloneRender hashHex tmpl cfg pctx files pageSrc a).filename, Node.script],
       [standaloneRender hashHex tmpl cfg pctx files pageSrc a]) := by
  have hptu : path_to_url files pageSrc "" = ("", none) := rfl
  have hsr : standaloneRender hashHex tmpl cfg pctx files pageSrc a =
      render_template hashHex tmpl cfg pctx (SpecUrl.single "") a := by
    unfold standaloneRender
    rw [hsrc]
    rfl
  refine ⟨hptu, hsr, ?_⟩
  unfold on_post_page
  rw [hfilter]
  rw [if_neg (by simp)]
  rw [if_neg (by simp [docTags, nodeAttrs, List.filterMap_cons])]
  have hga : groupedAttrs [Node.tag a] = [] := by
    simp [groupedAttrs, docTags, nodeAttrs, List.filterMap_cons, hgr]
  rw [hga]
  have hsa : standaloneAttrs [Node.tag a] = [a] := by
    simp [standaloneAttrs, docTags, nodeAttrs, List.filterMap_cons, hgr]
  rw [hsa]
  simp [rewriteNodes, hgr]

theorem C10_witness :
    path_to_url wFilesEmpty "index.md" "" = ("", none) ∧
    standaloneRender wHash wTmpl defaultConfig wPctx wFilesEmpty "index.md" [("name", "X")] =
      render_template wHash wTmpl defaultConfig wPctx (SpecUrl.single "") [("name", "X")] ∧
    on_post_page wHash wTmpl defaultConfig wPctx wFilesEmpty "index.md"
      [Node.tag [("name", "X")]] =
      ([replace_with_iframe
          (standaloneRender wHash wTmpl defaultConfig wPctx wFilesEmpty "index.md" [("name", "X")]).id
          (standaloneRender wHash wTmpl defaultConfig wPctx wFilesEmpty "index.md" [("name", "X")]).filename,
        Node.script],
       [standaloneRender wHash wTmpl defaultConfig wPctx wFilesEmpty "index.md" [("name", "X")]]) :=
  C10_no_src wHash wTmpl defaultConfig wPctx wFilesEmpty "index.md" [("name", "X")]
    rfl rfl rfl

/-! ### C2: grouped-tag pages -/

theorem countP_tag_split (l : List Node) :
    l.countP isTagNode = l.countP isGroupedNode + l.countP isStandaloneNode := by
  induction l with
  | nil => rfl
  | cons n rest ih =>
    cases n with
    | tag a =>
      by_cases hg : hasAttr a "grouped" <;>
        simp [List.countP_cons, isTagNode, isGroupedNode, isStandaloneNode, hg, ih] <;>
        omega
    | other s => simpa [List.countP_cons, isTagNode, isGroupedNode, isStandaloneNode] using ih
    | iframe a => simpa [List.countP_cons, isTagNode, isGroupedNode, isStandaloneNode] using ih
    | script => simpa [List.countP_cons, isTagNode, isGroupedNode, isStandaloneNode] using ih

theorem groupedAttrs_length (doc : List Node) :
    (groupedAttrs doc).length = doc.countP isGroupedNode := by
  unfold groupedAttrs docTags
  induction doc with
  | nil => rfl
  | cons n rest ih =>
    cases n with
    | tag a =>
      by_cases hg : hasAttr a "grouped" <;>
        simp [nodeAttrs, List.filterMap_cons, List.filter_cons, List.countP_cons,
          isGroupedNode, hg, ih]
    | other s => simpa [nodeAttrs, List.filterMap_cons, List.countP_cons, isGroupedNode] using ih
    | iframe a => simpa [nodeAttrs, List.filterMap_cons, List.countP_cons, isGroupedNode] using ih
    | script => simpa [nodeAttrs, List.filterMap_cons, List.countP_cons, isGroupedNode] using ih

theorem rewrite_countP_tag (R : Attrs → Fragment) (f : Fragment) :
    ∀ (l : List Node) (seen : Bool),
      (rewriteNodes R (some f) l seen).countP isTagNode = 0 := by
  intro l
  induction l with
  | nil => intro seen; rfl
  | cons n rest ih =>
    intro seen
    cases n with
    | tag a =>
      by_cases hg : hasAttr a "grouped"
      · cases seen <;>
          simp [rewriteNodes, hg, List.countP_cons, isTagNode,
            replace_with_iframe, ih]
      · simp [rewriteNodes, hg, List.countP_cons, isTagNode,
          replace_with_iframe, ih]
    | other s => simp [rewriteNodes, List.countP_cons, isTagNode, ih]
    | iframe a => simp [rewriteNodes, List.countP_cons, isTagNode, ih]
    | script => simp [rewriteNodes, List.countP_cons, isTagNode, ih]

theorem rewrite_countP_iframe (R : Attrs → Fragment) (f : Fragment) :
    ∀ (l : List Node) (seen : Bool),
      (rewriteNodes R (some f) l seen).countP isIframeNode =
        l.countP isStandaloneNode + l.countP isIframeNode +
          (if seen then 0 else if l.countP isGroupedNode = 0 then 0 else 1) := by
  intro l
  induction l with
  | nil => intro seen; cases seen <;> rfl
  | cons n rest ih =>
    intro seen
    cases n with
    | tag a =>
      by_cases hg : hasAttr a "grouped"
      · cases seen <;>
          simp [rewriteNodes, hg, List.countP_cons, isIframeNode, isStandaloneNode,
            isGroupedNode, replace_with_iframe, ih] <;>
          (try split_ifs) <;> omega
      · cases seen <;>
          simp [rewriteNodes, hg, List.countP_cons, isIframeNode, isStandaloneNode,
            isGroupedNode, replace_with_iframe, ih] <;>
          (try split_ifs) <;> omega
    | other s =>
      cases seen <;>
        simp [rewriteNodes, List.countP_cons, isIframeNode, isStandaloneNode,
          isGroupedNode, ih] <;>
        (try split_ifs) <;> omega
    | iframe a =>
      cases seen <;>
        simp [rewriteNodes, List.countP_cons, isIframeNode, isStandaloneNode,
          isGroupedNode, ih] <;>
        (try split_ifs) <;> omega
    | script =>
      cases seen <;>
        simp [rewriteNodes, List.countP_cons, isIframeNode, isStandaloneNode,
          isGroupedNode, ih] <;>
        (try split_ifs) <;> omega

theorem rewriteNodes_split_first_grouped (R : Attrs → Fragment) (f : Fragment) :
    ∀ (pre : List Node) (a : Attrs) (suf : List Node),
      (∀ b ∈ pre, isGroupedNode b = false) → hasAttr a "grouped" = true →
      rewriteNodes R (some f) (pre ++ Node.tag a :: suf) false =
        rewriteNodes R (some f) pre false ++
        replace_with_iframe f.id f.filename :: rewriteNodes R (some f) suf true := by
  intro pre
  induction pre with
  | nil =>
    intro a suf _ ha
    simp [rewriteNodes, ha]
  | cons b rest ih =>
    intro a suf hpre ha
    have hb : isGroupedNode b = false := hpre b (List.mem_cons_self _ _)
    have hrest : ∀ q ∈ rest, isGroupedNode q = false :=
      fun q hq => hpre q (List.mem_cons_of_mem _ hq)
    cases b with
    | tag a' =>
      have hg : hasAttr a' "grouped" = false := by simpa [isGroupedNode] using hb
      simp [rewriteNodes, hg, ih a suf hrest ha]
    | other s => simp [rewriteNodes, ih a suf hrest ha]
    | iframe a' => simp [rewriteNodes, ih a suf hrest ha]
    | script => simp [rewriteNodes, ih a suf hrest ha]

/-- C2: on a page with three tags of which exactly two are grouped, the
transformed page has exactly two iframe nodes and no raw tag left; the
written fragments are the standalone renders (in document order) followed
by the single group render, whose spec list is the document-ordered
`url`/`name` pairs (name falling back to the raw `src`) and whose options
and OAuth2 attributes come from the first grouped tag only; the group
iframe sits at the first grouped tag's position. -/
theorem C2_grouped_page (hashHex : String → String) (tmpl : TemplateInput → String)
    (cfg : GlobalConfig) (pctx : PageCtx) (files : SiteFiles) (pageSrc : String)
    (doc : List Node) (ga0 ga1 : Attrs)
    (hfilter : cfg.filter_files = [])
    (htags : doc.countP isTagNode = 3)
    (hgr : groupedAttrs doc = [ga0, ga1])
    (hifr : doc.countP isIframeNode = 0) :
    (on_post_page hashHex tmpl cfg pctx files pageSrc doc).1.countP isIframeNode = 2 ∧
    (on_post_page hashHex tmpl cfg pctx files pageSrc doc).1.countP isTagNode = 0 ∧
    (on_post_page hashHex tmpl cfg pctx files pageSrc doc).2 =
      (standaloneAttrs doc).map (standaloneRender hashHex tmpl cfg pctx files pageSrc) ++
      [render_template hashHex tmpl cfg pctx
        (SpecUrl.group [specEntry files pageSrc ga0, specEntry files pageSrc ga1]) ga0] ∧
    (∀ pre suf, doc = pre ++ Node.tag ga0 :: suf →
       (∀ b ∈ pre, isGroupedNode b = false) →
       (on_post_page hashHex tmpl cfg pctx files pageSrc doc).1 =
         rewriteNodes (standaloneRender hashHex tmpl cfg pctx files pageSrc)
           (some (render_template hashHex tmpl cfg pctx
             (SpecUrl.group [specEntry files pageSrc ga0, specEntry files pageSrc ga1]) ga0))
           pre false ++
         replace_with_iframe
           (render_template hashHex tmpl cfg pctx
             (SpecUrl.group [specEntry files pageSrc ga0, specEntry files pageSrc ga1]) ga0).id
           (render_template hashHex tmpl cfg pctx
             (SpecUrl.group [specEntry files pageSrc ga0, specEntry files pageSrc ga1]) ga0).filename ::
         rewriteNodes (standaloneRender hashHex tmpl cfg pctx files pageSrc)
           (some (render_template hashHex tmpl cfg pctx
             (SpecUrl.group [specEntry files pageSrc ga0, specEntry files pageSrc ga1]) ga0))
           suf true ++ [Node.script]) := by
  have hga0 : hasAttr ga0 "grouped" = true := by
    have hmem : ga0 ∈ groupedAttrs doc := by rw [hgr]; exact List.mem_cons_self _ _
    unfold groupedAttrs at hmem
    exact (List.mem_filter.mp hmem).2
  have hgcount : doc.countP isGroupedNode = 2 := by
    rw [← groupedAttrs_length, hgr]
    rfl
  have hscount : doc.countP isStandaloneNode = 1 := by
    have := countP_tag_split doc
    omega
  have hne : ¬ (docTags doc).isEmpty = true := by
    have hlen : (docTags doc).length = 3 := by rw [docTags_length]; exact htags
    intro he
    rw [List.isEmpty_iff] at he
    rw [he] at hlen
    simp at hlen
  have hout : on_post_page hashHex tmpl cfg pctx files pageSrc doc =
      (rewriteNodes (standaloneRender hashHex tmpl cfg pctx files pageSrc)
        (some (render_template hashHex tmpl cfg pctx
          (SpecUrl.group [specEntry files pageSrc ga0, specEntry files pageSrc ga1]) ga0))
        doc false ++ [Node.script],
       (standaloneAttrs doc).map (standaloneRender hashHex tmpl cfg pctx files pageSrc) ++
       [render_template hashHex tmpl cfg pctx
         (SpecUrl.group [specEntry files pageSrc ga0, specEntry files pageSrc ga1]) ga0]) := by
    unfold on_post_page
    rw [hfilter]
    rw [if_neg (by simp)]
    rw [if_neg hne]
    rw [hgr]
    rfl
  refine ⟨?_, ?_, ?_, ?_⟩
  · rw [hout]
    simp only [List.countP_append]
    rw [rewrite_countP_iframe]
    simp [isIframeNode, hscount, hifr, hgcount]
  · rw [hout]
    simp only [List.countP_append]
    rw [rewrite_countP_tag]
    simp [isTagNode]
  · rw [hout]
  · intro pre suf hdoc hpre
    rw [hout, hdoc, rewriteNodes_split_first_grouped _ _ pre ga0 suf hpre hga0]
    try simp

theorem C2_witness :
    (on_post_page wHash wTmpl defaultConfig wPctx wFilesEmpty "index.md" wDoc).1.countP
      isIframeNode = 2 ∧
    (on_post_page wHash wTmpl defaultConfig wPctx wFilesEmpty "index.md" wDoc).1.countP
      isTagNode = 0 ∧
    (on_post_page wHash wTmpl defaultConfig wPctx wFilesEmpty "index.md" wDoc).2 =
      (standaloneAttrs wDoc).map
        (standaloneRender wHash wTmpl defaultConfig wPctx wFilesEmpty "index.md") ++
      [render_template wHash wTmpl defaultConfig wPctx
        (SpecUrl.group
          [specEntry wFilesEmpty "index.md" [("grouped", ""), ("src", "b.json")],
           specEntry wFilesEmpty "index.md" [("grouped", ""), ("name", "B2"), ("src", "c.json")]])
        [("grouped", ""), ("src", "b.json")]] := by
  have H := C2_grouped_page wHash wTmpl defaultConfig wPctx wFilesEmpty "index.md" wDoc
    [("grouped", ""), ("src", "b.json")] [("grouped", ""), ("name", "B2"), ("src", "c.json")]
    rfl (by decide) (by decide) (by decide)
  exact ⟨H.1, H.2.1, H.2.2.1⟩

/-! ### C6: fragment rendering determinism -/

/-- C6: rendering is a pure function of its inputs: two renders of the same
spec reference (single or grouped), tag attributes, configuration and page
context agree on identifier and content; the identifier is the first 8
characters of the digest of the placeholder-rendered text (8 hex characters
when the digest is a 64-character hex string, as a SHA-256 hexdigest is);
the content is the placeholder text with the identifier substituted, and
the file name is the fixed prefix, the identifier and the fixed extension. -/
theorem C6_render_deterministic (hashHex : String → String) (tmpl : TemplateInput → String)
    (cfg : GlobalConfig) (pctx : PageCtx) (spec : SpecUrl) (attrs : Attrs)
    (hlen : ∀ s, (hashHex s).length = 64)
    (hhex : ∀ s, ∀ c ∈ (hashHex s).data, isHexDigitB c = true) :
    render_template hashHex tmpl cfg pctx spec attrs =
      render_template hashHex tmpl cfg pctx spec attrs ∧
    (render_template hashHex tmpl cfg pctx spec attrs).id =
      strTake (hashHex (placeholderOutput tmpl cfg pctx spec attrs)) 8 ∧
    (render_template hashHex tmpl cfg pctx spec attrs).content =
      strReplace (placeholderOutput tmpl cfg pctx spec attrs) ID_PLACEHOLDER
        (render_template hashHex tmpl cfg pctx spec attrs).id ∧
    (render_template hashHex tmpl cfg pctx spec attrs).filename =
      "swagger-" ++ (render_template hashHex tmpl cfg pctx spec attrs).id ++ ".html" ∧
    (render_template hashHex tmpl cfg pctx spec attrs).id.length = 8 ∧
    (∀ c ∈ (render_template hashHex tmpl cfg pctx spec attrs).id.data,
       isHexDigitB c = true) := by
  refine ⟨rfl, rfl, rfl, rfl, ?_, ?_⟩
  · have h : (hashHex (placeholderOutput tmpl cfg pctx spec attrs)).data.length = 64 :=
      hlen (placeholderOutput tmpl cfg pctx spec attrs)
    show ((hashHex (placeholderOutput tmpl cfg pctx spec attrs)).data.take 8).length = 8
    rw [List.length_take, h]
    rfl
  · intro c hc
    have hc' : c ∈ (hashHex (placeholderOutput tmpl cfg pctx spec attrs)).data :=
      List.take_subset 8 _ hc
    exact hhex _ c hc'

theorem C6_witness :
    (∀ s, (wHash s).length = 64) ∧
    (render_template wHash wTmpl defaultConfig wPctx (SpecUrl.single "a.json")
      [("src", "a.json")]).id = "aaaaaaaa" ∧
    (render_template wHash wTmpl defaultConfig wPctx (SpecUrl.single "a.json")
      [("src", "a.json")]).id.length = 8 ∧
    (render_template wHash wTmpl defaultConfig wPctx (SpecUrl.single "a.json")
      [("src", "a.json")]).filename = "swagger-aaaaaaaa.html" := by
  have hlen : ∀ s, (wHash s).length = 64 := fun _ => rfl
  have hhex : ∀ s, ∀ c ∈ (wHash s).data, isHexDigitB c = true := by
    intro s c hc
    have hca : c = 'a' := List.eq_of_mem_replicate hc
    rw [hca]
    decide
  have H := C6_render_deterministic wHash wTmpl defaultConfig wPctx
    (SpecUrl.single "a.json") [("src", "a.json")] hlen hhex
  refine ⟨hlen, ?_, H.2.2.2.2.1, ?_⟩
  · exact H.2.1.trans (by rfl)
  · exact H.2.2.2.1.trans (by rfl)
